import Mathlib

/-!
Verification development for the vulmap scanner core.

The definitions below are a shallow embedding of the Go sources:
* pkg/protocols/common/contextargs/contextargs.go (Context, Set, Get, Has,
  Add, Clone);
* the SDK engine plumbing (applyRequiredDefaults, init, createEphemeralObjects,
  ExecuteVulmapWithOpts);
* the LDAP protocol client (IsLdap, CollectLdapMetadata, parseDC,
  getBaseNamingContext, collectLdapMetadata).

Go mutation and pointer sharing are made explicit by threading a small heap:
a Context holds numeric references into the heap, exactly as the Go struct
holds pointers, so that sharing (the cookie jar pointer copied by Clone)
and isolation (the args map deep-copied by Clone) are both visible.
-/

namespace Vulmap

/-- Embedding of a Go interface value as stored in the workflow
key-value store. VNil is the nil interface, VStr a string, VStrList a
Go slice of strings, VInt an int, VList a Go slice of interface values. -/
inductive GoValue where
  | VNil : GoValue
  | VStr : String → GoValue
  | VStrList : List String → GoValue
  | VInt : Int → GoValue
  | VList : List GoValue → GoValue

/-- The underlying map of a SyncLockMap of string to interface value,
as an association list without duplicate keys. -/
abbrev ArgsMap := List (String × GoValue)

/-- Go map assignment: replace the binding of the key when present,
otherwise append a new binding. -/
def ArgsMap.set : ArgsMap → String → GoValue → ArgsMap
  | [], k, v => [(k, v)]
  | (k0, v0) :: rest, k, v =>
      if k0 = k then (k, v) :: rest else (k0, v0) :: ArgsMap.set rest k v

/-- Go map read with the ok flag: a missing key yields the zero value
(the nil interface) and false, as values and ok do in Go. -/
def ArgsMap.get : ArgsMap → String → GoValue × Bool
  | [], _ => (GoValue.VNil, false)
  | (k0, v0) :: rest, k => if k0 = k then (v0, true) else ArgsMap.get rest k

/-- SyncLockMap.Has: membership of the key in the map. -/
def ArgsMap.has (m : ArgsMap) (k : String) : Bool :=
  (ArgsMap.get m k).2

/-- Contents of a net/http cookiejar.Jar, reduced to the list of cookies
that have been stored in it; only identity and sharing of jars matter
for the claims about Context.Clone. -/
abbrev Jar := List String

/-- The heap: reference-indexed stores for args maps and for cookie jars,
plus the next fresh reference. Go pointers become Nat references. -/
structure Heap where
  argsStore : Nat → ArgsMap
  jarStore : Nat → Jar
  nextRef : Nat

def Heap.empty : Heap :=
  { argsStore := fun _ => [], jarStore := fun _ => [], nextRef := 0 }

/-- MetaInput: the target of the executor; only the input string is
relevant here. MetaInput.Clone deep-copies, which a Lean value copy models. -/
structure MetaInput where
  Input : String

/-- contextargs.Context: MetaInput, a pointer to a cookie jar and a
pointer to the shared key-value store, as in the Go struct. -/
structure Context where
  MetaInput : MetaInput
  CookieJarRef : Nat
  argsRef : Nat

/-- NewWithInput: allocate a fresh cookie jar and a fresh empty args map. -/
def NewWithInput (input : String) (h : Heap) : Context × Heap :=
  let jarRef := h.nextRef
  let aRef := h.nextRef + 1
  (⟨⟨input⟩, jarRef, aRef⟩,
   { argsStore := fun r => if r = aRef then [] else h.argsStore r
     jarStore := fun r => if r = jarRef then [] else h.jarStore r
     nextRef := h.nextRef + 2 })

/-- New: NewWithInput with the empty input string. -/
def Context.New (h : Heap) : Context × Heap :=
  NewWithInput "" h

/-- Context.Set: write the key-value pair through the args pointer. -/
def Context.Set (c : Context) (h : Heap) (k : String) (v : GoValue) : Heap :=
  { h with argsStore := fun r =>
      if r = c.argsRef then ArgsMap.set (h.argsStore c.argsRef) k v
      else h.argsStore r }

/-- ctx.hasArgs: the args map is not empty. -/
def Context.hasArgs (c : Context) (h : Heap) : Bool :=
  !(h.argsStore c.argsRef).isEmpty

/-- Context.Get: nil and false when the store is empty, otherwise the
map read with its ok flag. -/
def Context.Get (c : Context) (h : Heap) (k : String) : GoValue × Bool :=
  if !(c.hasArgs h) then (GoValue.VNil, false)
  else ArgsMap.get (h.argsStore c.argsRef) k

/-- Context.Has: the store is not empty and the key is present. -/
def Context.Has (c : Context) (h : Heap) (k : String) : Bool :=
  c.hasArgs h && ArgsMap.has (h.argsStore c.argsRef) k

/-- Context.Add, exactly as written in the source: read the key, Set it
when absent, then switch on the type of the value. The switch is not
guarded by the ok flag, so it also runs when the key was just set. -/
def Context.Add (c : Context) (h : Heap) (key : String) (v : GoValue) : Heap :=
  let vo := ArgsMap.get (h.argsStore c.argsRef) key
  let values := vo.1
  let ok := vo.2
  let h1 := if !ok then c.Set h key v else h
  match v with
  | GoValue.VStrList l =>
      match values with
      | GoValue.VStrList l0 => c.Set h1 key (GoValue.VStrList (l0 ++ l))
      | _ => h1
  | GoValue.VStr s =>
      match values with
      | GoValue.VStr s0 => c.Set h1 key (GoValue.VStrList [s0, s])
      | _ => h1
  | _ =>
      let g := c.Get h1 key
      c.Set h1 key (GoValue.VList [g.1, v])

/-- Context.Clone: deep-copy the MetaInput, deep-copy the args map into a
fresh reference (SyncLockMap.Clone), and copy the CookieJar pointer. -/
def Context.Clone (c : Context) (h : Heap) : Context × Heap :=
  let newArgsRef := h.nextRef
  (⟨c.MetaInput, c.CookieJarRef, newArgsRef⟩,
   { h with
     argsStore := fun r =>
       if r = newArgsRef then h.argsStore c.argsRef else h.argsStore r
     nextRef := h.nextRef + 1 })

/-- http.CookieJar.SetCookies through the cookie jar pointer of a Context,
reduced to appending a cookie to the referenced jar. -/
def Context.setCookie (c : Context) (h : Heap) (cookie : String) : Heap :=
  { h with jarStore := fun r =>
      if r = c.CookieJarRef then h.jarStore c.CookieJarRef ++ [cookie]
      else h.jarStore r }

/-- The cookies visible through the cookie jar pointer of a Context. -/
def Context.cookies (c : Context) (h : Heap) : Jar :=
  h.jarStore c.CookieJarRef

/-! Engine plumbing: rate limiter selection, required defaults, and the
guard clauses of ExecuteVulmapWithOpts. -/

/-- The unit of the window of a token bucket, as passed to ratelimit.New. -/
inductive TimeUnit where
  | second : TimeUnit
  | minute : TimeUnit
deriving DecidableEq

/-- Configuration of a ratelimit limiter: either a token bucket of count
tokens per window, or the Unlimited limiter that never blocks. -/
inductive RateLimiterCfg where
  | bucket : Nat → TimeUnit → RateLimiterCfg
  | unlimited : RateLimiterCfg
deriving DecidableEq

/-- The two rate-limit fields of types.Options that the engine consults;
Go int becomes Int. -/
structure RateLimitOptions where
  RateLimitMinute : Int
  RateLimit : Int

/-- The rate limiter installed into executerOpts, as selected by the
if-else chain written identically in VulmapEngine.init and in
createEphemeralObjects: RateLimitMinute wins when positive, then
RateLimit, otherwise Unlimited. The Go uint cast of the count is toNat. -/
def selectExecutorRateLimiter (opts : RateLimitOptions) : RateLimiterCfg :=
  if opts.RateLimitMinute > 0 then
    RateLimiterCfg.bucket opts.RateLimitMinute.toNat TimeUnit.minute
  else if opts.RateLimit > 0 then
    RateLimiterCfg.bucket opts.RateLimit.toNat TimeUnit.second
  else
    RateLimiterCfg.unlimited

/-- The two arguments of hosterrorscache.New that configure the cache:
the error threshold and the maximum number of tracked hosts. -/
structure HostErrorsCacheConfig where
  maxHostError : Int
  maxHostsCount : Int
deriving DecidableEq

/-- Modelled from the spec: the constant hosterrorscache.DefaultMaxHostsCount
is defined in the hosterrorscache package, which is not among the given
sources; the spec documents the default LRU bound as 10,000 hosts. -/
def DefaultMaxHostsCount : Int := 10000

/-- The fields of VulmapEngine touched by applyRequiredDefaults. The
writer, progress and interactsh options are reduced to presence flags;
the host error cache and rate limiter carry their configurations. -/
structure EngineState where
  customWriterSet : Bool
  customProgressSet : Bool
  hostErrCache : Option HostErrorsCacheConfig
  interactshOptsSet : Bool
  rateLimiter : Option RateLimiterCfg
  excludeTags : List String
  inputProviderInputs : List String

/-- VulmapEngine.applyRequiredDefaults: fill every unset field with its
default — in particular hosterrorscache.New(30, DefaultMaxHostsCount, nil)
when no cache was supplied and a 150 per second bucket when no limiter was
supplied — then unconditionally overwrite ExcludeTags with the tags of the
persistent ignore file (config.ReadIgnoreFile().Tags, passed here as the
ignoreFileTags argument) and reset the input provider to an empty one. -/
def applyRequiredDefaults (ignoreFileTags : List String) (e : EngineState) :
    EngineState :=
  let e := if e.customWriterSet then e else { e with customWriterSet := true }
  let e :=
    if e.customProgressSet then e else { e with customProgressSet := true }
  let e :=
    if e.hostErrCache.isNone then
      { e with hostErrCache := some ⟨30, DefaultMaxHostsCount⟩ }
    else e
  let e :=
    if e.interactshOptsSet then e else { e with interactshOptsSet := true }
  let e :=
    if e.rateLimiter.isNone then
      { e with rateLimiter := some (RateLimiterCfg.bucket 150 TimeUnit.second) }
    else e
  { e with excludeTags := ignoreFileTags, inputProviderInputs := [] }

/-- Outcome of ThreadSafeVulmapEngine.ExecuteVulmapWithOpts once template
loading and target loading have succeeded. -/
inductive ExecuteOutcome where
  | errNoTemplatesAvailable : ExecuteOutcome
  | errNoTargetsAvailable : ExecuteOutcome
  | scanStarted : ExecuteOutcome
deriving DecidableEq

/-- The guard clauses at the end of ExecuteVulmapWithOpts: with zero
loaded templates and zero loaded workflows return ErrNoTemplatesAvailable;
otherwise with an input provider count of zero return ErrNoTargetsAvailable;
otherwise ExecuteScanWithOpts runs. -/
def executeVulmapWithOptsOutcome (numTemplates numWorkflows numTargets : Nat) :
    ExecuteOutcome :=
  if numTemplates = 0 && numWorkflows = 0 then
    ExecuteOutcome.errNoTemplatesAvailable
  else if numTargets = 0 then
    ExecuteOutcome.errNoTargetsAvailable
  else
    ExecuteOutcome.scanStarted

/-! HTTP request clustering, §4.I of the spec. The clustering executor is
not among the given sources, so the two runs are modelled from the spec. -/

/-- The base request of an HTTP template: method, path and body, the
fields whose byte-identity makes templates clusterable. -/
structure BaseRequest where
  method : String
  path : String
  body : String
deriving DecidableEq

/-- An HTTP response, reduced to status code and body. -/
structure HTTPResponse where
  status : Nat
  body : String
deriving DecidableEq

/-- An HTTP template as the clusterer sees it: an id, a base request, and
its own matcher evaluation against a response. -/
structure ClusterTemplate where
  id : String
  base : BaseRequest
  matcherPass : HTTPResponse → Bool

/-- A result event, reduced to the emitting template id and the matched
location. -/
structure ClusterEvent where
  templateId : String
  matchedAt : String
deriving DecidableEq

/-- Modelled from the spec: one template run against one target behind a
deterministic responder — issue the base request, evaluate the matchers of
the template against the response, emit one event on a match. -/
def runTemplate (respond : BaseRequest → HTTPResponse) (t : ClusterTemplate) :
    List ClusterEvent :=
  if t.matcherPass (respond t.base) then [⟨t.id, t.base.path⟩] else []

/-- Modelled from the spec: the unclustered run — each template is run
separately against the same target and the emitted events are collected. -/
def runSeparately (respond : BaseRequest → HTTPResponse)
    (ts : List ClusterTemplate) : List ClusterEvent :=
  (ts.map (runTemplate respond)).flatten

/-- Modelled from the spec: the clustered run — one physical request is
issued for the whole cluster and each cluster member evaluates its own
matchers against the shared response. -/
def runClustered (respond : BaseRequest → HTTPResponse)
    (ts : List ClusterTemplate) : List ClusterEvent :=
  match ts with
  | [] => []
  | t0 :: _ =>
      let shared := respond t0.base
      (ts.map (fun t =>
        if t.matcherPass shared then [ClusterEvent.mk t.id t.base.path]
        else [])).flatten

/-! The LDAP protocol client. External collaborators (the network policy
of protocolstate, the dialer, the fingerprintx plugin and the go-ldap
connection) are passed in as an explicit environment; each function also
returns the list of addresses it dialed, so that the absence of a dial is
a provable fact. -/

/-- Outcome of protocolstate.Dialer.Dial for one address. -/
inductive DialOutcome where
  | ok : DialOutcome
  | err : String → DialOutcome

/-- Outcome of running the fingerprintx LDAP plugin on an open connection. -/
inductive PluginOutcome where
  | service : PluginOutcome
  | noService : PluginOutcome
  | runError : String → PluginOutcome

/-- One LDAP entry: its attributes as name-value pairs. -/
abbrev LdapEntry := List (String × String)

/-- The external collaborators of LdapClient. -/
structure LdapEnv where
  isHostAllowed : String → Bool
  dial : String → DialOutcome
  pluginRun : String → PluginOutcome
  bind : String → String → Option String
  unauthenticatedBind : Option String
  search : List String → Except String (List LdapEntry)

/-- The errors an LdapClient call can surface. -/
inductive LdapError where
  | hostDenied : String → LdapError
  | dialFailed : String → LdapError
  | pluginFailed : String → LdapError
  | bindFailed : String → LdapError
  | searchFailed : String → LdapError
deriving DecidableEq

/-- LDAPMetadata: the metadata for an ldap server. -/
structure LDAPMetadata where
  BaseDN : String
  Domain : String
  DefaultNamingContext : String
  DomainFunctionality : String
  ForestFunctionality : String
  DomainControllerFunctionality : String
  DnsHostName : String
deriving DecidableEq

/-- The zero value of LDAPMetadata, as returned on the error paths. -/
def LDAPMetadata.zero : LDAPMetadata :=
  ⟨"", "", "", "", "", "", ""⟩

/-- The placeholder for an LdapClient value: the Go struct has no fields. -/
structure LdapClient where

/-- LdapClient.IsLdap: deny the host when the network policy rejects it,
otherwise dial host:port and run the LDAP fingerprint plugin. The second
component lists the addresses dialed. -/
def LdapClient.IsLdap (_c : LdapClient) (env : LdapEnv) (host : String)
    (port : Int) : (Bool × Option LdapError) × List String :=
  if !(env.isHostAllowed host) then
    ((false, some (LdapError.hostDenied host)), [])
  else
    let addr := host ++ ":" ++ toString port
    match env.dial addr with
    | DialOutcome.err e => ((false, some (LdapError.dialFailed e)), [addr])
    | DialOutcome.ok =>
        match env.pluginRun host with
        | PluginOutcome.runError e =>
            ((false, some (LdapError.pluginFailed e)), [addr])
        | PluginOutcome.noService => ((false, none), [addr])
        | PluginOutcome.service => ((true, none), [addr])

/-- strings.TrimPrefix: drop the leading pattern when present, otherwise
return the string unchanged. -/
def trimLeading (pat s : String) : String :=
  if s.startsWith pat then s.drop pat.length else s

/-- parseDC: lower-case the input, split on commas, strip a leading dc=
from every part, and join the parts with dots. -/
def parseDC (input : String) : String :=
  String.intercalate "." ((input.toLower.splitOn ",").map (trimLeading "dc="))

/-- ldap.Entry.GetAttributeValue: the first value of the named attribute,
or the empty string. -/
def getAttributeValue (entry : LdapEntry) (name : String) : String :=
  match entry.find? (fun p => p.1 == name) with
  | some p => p.2
  | none => ""

/-- getBaseNamingContext: return the cached baseDN when set, otherwise
search the root for defaultNamingContext and fail when the response is
empty or the attribute is missing. -/
def getBaseNamingContext (env : LdapEnv) (baseDN : String) :
    Except String String :=
  if baseDN ≠ "" then Except.ok baseDN
  else
    match env.search ["defaultNamingContext"] with
    | Except.error e => Except.error e
    | Except.ok [] =>
        Except.error "error getting metadata: No LDAP responses from server"
    | Except.ok (e0 :: _) =>
        let d := getAttributeValue e0 "defaultNamingContext"
        if d = "" then
          Except.error "error getting metadata: attribute defaultNamingContext missing"
        else Except.ok d

/-- The metadata switch of collectLdapMetadata: store a value under the
matching field of the metadata. -/
def LDAPMetadata.applyAttr (m : LDAPMetadata) (name value : String) :
    LDAPMetadata :=
  if name = "defaultNamingContext" then { m with DefaultNamingContext := value }
  else if name = "domainFunctionality" then
    { m with DomainFunctionality := value }
  else if name = "forestFunctionality" then
    { m with ForestFunctionality := value }
  else if name = "domainControllerFunctionality" then
    { m with DomainControllerFunctionality := value }
  else if name = "dnsHostName" then { m with DnsHostName := value }
  else m

/-- The entry loop of collectLdapMetadata: for every attribute of the
entry, read its first value and store it under the matching field. -/
def applyEntry (m : LDAPMetadata) (entry : LdapEntry) : LDAPMetadata :=
  entry.foldl (fun m p => m.applyAttr p.1 (getAttributeValue entry p.1)) m

/-- collectLdapMetadata on an open connection: bind (unauthenticated when
the username is empty), resolve the base naming context discarding its
error, then search the root for the five metadata attributes and fold the
entries into the metadata. -/
def collectLdapMetadataConn (env : LdapEnv) (username password : String) :
    LDAPMetadata × Option LdapError :=
  let metadata := LDAPMetadata.zero
  let bindRes :=
    if username = "" then env.unauthenticatedBind else env.bind username password
  match bindRes with
  | some e => (metadata, some (LdapError.bindFailed e))
  | none =>
      let baseDN :=
        match getBaseNamingContext env "" with
        | Except.ok d => d
        | Except.error _ => ""
      let metadata := { metadata with BaseDN := baseDN, Domain := parseDC baseDN }
      match env.search ["defaultNamingContext", "domainFunctionality",
          "forestFunctionality", "domainControllerFunctionality",
          "dnsHostName"] with
      | Except.error e => (metadata, some (LdapError.searchFailed e))
      | Except.ok entries => (entries.foldl applyEntry metadata, none)

/-- LdapClient.CollectLdapMetadata: deny the domain when the network
policy rejects it, otherwise open a session (newLdapSession dials the
controller on port 389, since the session options carry port zero) and
collect the metadata. The second component lists the addresses dialed. -/
def LdapClient.CollectLdapMetadata (_c : LdapClient) (env : LdapEnv)
    (domain controller : String) :
    (LDAPMetadata × Option LdapError) × List String :=
  if !(env.isHostAllowed domain) then
    ((LDAPMetadata.zero, some (LdapError.hostDenied domain)), [])
  else
    let port : Int := 389
    let addr := controller ++ ":" ++ toString port
    match env.dial addr with
    | DialOutcome.err e =>
        ((LDAPMetadata.zero, some (LdapError.dialFailed e)), [addr])
    | DialOutcome.ok => (collectLdapMetadataConn env "" "", [addr])

/-- A network-policy environment that denies every host; used to evaluate
the denied-host paths at a concrete input. -/
def denyAllEnv : LdapEnv :=
  { isHostAllowed := fun _ => false
    dial := fun _ => DialOutcome.ok
    pluginRun := fun _ => PluginOutcome.noService
    bind := fun _ _ => none
    unauthenticatedBind := none
    search := fun _ => Except.ok [] }

/-! Helper lemmas shared by the theorems below. -/

/-- Reading a key right after writing it yields the written value. -/
theorem ArgsMap.get_set_self (m : ArgsMap) (k : String) (v : GoValue) :
    ArgsMap.get (ArgsMap.set m k v) k = (v, true) := by
  induction m with
  | nil => simp [ArgsMap.set, ArgsMap.get]
  | cons p rest ih =>
      obtain ⟨k0, v0⟩ := p
      by_cases hk : k0 = k
      · simp [ArgsMap.set, hk, ArgsMap.get]
      · simp [ArgsMap.set, hk, ArgsMap.get, ih]

/-- A map is never empty after a write. -/
theorem ArgsMap.set_isEmpty (m : ArgsMap) (k : String) (v : GoValue) :
    (ArgsMap.set m k v).isEmpty = false := by
  cases m with
  | nil => simp [ArgsMap.set]
  | cons p rest =>
      obtain ⟨k0, v0⟩ := p
      by_cases hk : k0 = k <;> simp [ArgsMap.set, hk]

/-- A read whose ok flag is false returns the nil interface: reading an
absent key yields exactly (nil, false). -/
theorem ArgsMap.get_snd_false (m : ArgsMap) (k : String)
    (hk : (ArgsMap.get m k).2 = false) :
    ArgsMap.get m k = (GoValue.VNil, false) := by
  induction m with
  | nil => rfl
  | cons p rest ih =>
      obtain ⟨k0, v0⟩ := p
      by_cases h0 : k0 = k
      · simp [ArgsMap.get, h0] at hk
      · simp only [ArgsMap.get, if_neg h0] at hk ⊢
        exact ih hk

/-! The claims. -/

/-- C1 counterexample: the claim that a clone has its own cookie jar fails
at a concrete input. After cloning a fresh Context, a cookie stored through
the clone is visible through the original Context, whose jar was empty
right after the clone. -/
theorem clone_cookiejar_write_visible_cex :
    Context.cookies (NewWithInput "target" Heap.empty).1
        ((((NewWithInput "target" Heap.empty).1).Clone
            (NewWithInput "target" Heap.empty).2).1.setCookie
          (((NewWithInput "target" Heap.empty).1).Clone
            (NewWithInput "target" Heap.empty).2).2 "session") = ["session"] ∧
    Context.cookies (NewWithInput "target" Heap.empty).1
        (((NewWithInput "target" Heap.empty).1).Clone
          (NewWithInput "target" Heap.empty).2).2 = [] := by
  constructor <;> rfl

/-- C1 (amended): Context.Clone copies the cookie jar pointer, so the
clone and the original share one cookie jar: a cookie stored through
either Context is visible through both. -/
theorem clone_shares_cookiejar (h h2 : Heap) (c : Context) (cookie : String) :
    ((c.Clone h).1).CookieJarRef = c.CookieJarRef ∧
    Context.cookies c (((c.Clone h).1).setCookie h2 cookie)
        = Context.cookies c h2 ++ [cookie] ∧
    Context.cookies ((c.Clone h).1) (c.setCookie h2 cookie)
        = Context.cookies ((c.Clone h).1) h2 ++ [cookie] := by
  refine ⟨rfl, ?_, ?_⟩ <;>
    simp [Context.Clone, Context.setCookie, Context.cookies]

/-- C2: Context.Clone deep-copies the key-value store into a fresh
reference, so a Set through the clone changes no Get through the original
and a Set through the original changes no Get through the clone. -/
theorem clone_args_isolated (h : Heap) (c : Context)
    (hwf : c.argsRef < h.nextRef) (k k2 : String) (v : GoValue) :
    Context.Get c (((c.Clone h).1).Set (c.Clone h).2 k v) k2
        = Context.Get c (c.Clone h).2 k2 ∧
    Context.Get ((c.Clone h).1) (c.Set (c.Clone h).2 k v) k2
        = Context.Get ((c.Clone h).1) (c.Clone h).2 k2 := by
  have hne : c.argsRef ≠ h.nextRef := Nat.ne_of_lt hwf
  constructor <;>
    · simp only [Context.Get, Context.Set, Context.Clone, Context.hasArgs]
      split_ifs <;> simp_all [hne, Ne.symm hne]

/-- C2 witness: the isolation theorem applied to a freshly created Context
and a concrete key-value pair. -/
theorem clone_args_isolated_witness :
    Context.Get (NewWithInput "t" Heap.empty).1
        ((((NewWithInput "t" Heap.empty).1).Clone
            (NewWithInput "t" Heap.empty).2).1.Set
          (((NewWithInput "t" Heap.empty).1).Clone
            (NewWithInput "t" Heap.empty).2).2 "k" (GoValue.VStr "v")) "k2"
      = Context.Get (NewWithInput "t" Heap.empty).1
          (((NewWithInput "t" Heap.empty).1).Clone
            (NewWithInput "t" Heap.empty).2).2 "k2" ∧
    Context.Get (((NewWithInput "t" Heap.empty).1).Clone
        (NewWithInput "t" Heap.empty).2).1
        ((NewWithInput "t" Heap.empty).1.Set
          (((NewWithInput "t" Heap.empty).1).Clone
            (NewWithInput "t" Heap.empty).2).2 "k" (GoValue.VStr "v")) "k2"
      = Context.Get (((NewWithInput "t" Heap.empty).1).Clone
          (NewWithInput "t" Heap.empty).2).1
          (((NewWithInput "t" Heap.empty).1).Clone
            (NewWithInput "t" Heap.empty).2).2 "k2" :=
  clone_args_isolated (NewWithInput "t" Heap.empty).2
    (NewWithInput "t" Heap.empty).1 (by decide) "k" "k2" (GoValue.VStr "v")

/-- C3: the executor rate limiter is a RateLimitMinute-sized bucket per
minute whenever RateLimitMinute is positive (whatever RateLimit is),
otherwise a RateLimit-sized bucket per second when RateLimit is positive,
otherwise the Unlimited limiter. -/
theorem executor_rate_limiter_selection (opts : RateLimitOptions) :
    (opts.RateLimitMinute > 0 →
      selectExecutorRateLimiter opts
        = RateLimiterCfg.bucket opts.RateLimitMinute.toNat TimeUnit.minute) ∧
    (opts.RateLimitMinute ≤ 0 → opts.RateLimit > 0 →
      selectExecutorRateLimiter opts
        = RateLimiterCfg.bucket opts.RateLimit.toNat TimeUnit.second) ∧
    (opts.RateLimitMinute ≤ 0 → opts.RateLimit ≤ 0 →
      selectExecutorRateLimiter opts = RateLimiterCfg.unlimited) := by
  refine ⟨?_, ?_, ?_⟩
  · intro h1
    unfold selectExecutorRateLimiter
    rw [if_pos h1]
  · intro h1 h2
    unfold selectExecutorRateLimiter
    rw [if_neg (by omega), if_pos h2]
  · intro h1 h2
    unfold selectExecutorRateLimiter
    rw [if_neg (by omega), if_neg (by omega)]

/-- C3 witness: the selection theorem applied at one input per branch,
including an input where both limits are set and the minute bucket wins. -/
theorem executor_rate_limiter_selection_witness :
    selectExecutorRateLimiter ⟨60, 10⟩
        = RateLimiterCfg.bucket 60 TimeUnit.minute ∧
    selectExecutorRateLimiter ⟨0, 10⟩
        = RateLimiterCfg.bucket 10 TimeUnit.second ∧
    selectExecutorRateLimiter ⟨0, 0⟩ = RateLimiterCfg.unlimited :=
  ⟨(executor_rate_limiter_selection ⟨60, 10⟩).1 (by decide),
   (executor_rate_limiter_selection ⟨0, 10⟩).2.1 (by decide) (by decide),
   (executor_rate_limiter_selection ⟨0, 0⟩).2.2 (by decide) (by decide)⟩

/-- C4: when no host error cache has been supplied, applyRequiredDefaults
constructs it with error threshold 30 and the default maximum host count
of 10,000. -/
theorem host_error_cache_default (ignoreFileTags : List String)
    (e : EngineState) (hnone : e.hostErrCache = none) :
    (applyRequiredDefaults ignoreFileTags e).hostErrCache
      = some ⟨30, 10000⟩ := by
  simp [applyRequiredDefaults, DefaultMaxHostsCount, hnone,
    apply_ite EngineState.hostErrCache]

/-- C4 witness: the default-cache theorem applied to an engine state with
every field unset. -/
theorem host_error_cache_default_witness :
    (applyRequiredDefaults []
        ⟨false, false, none, false, none, [], []⟩).hostErrCache
      = some ⟨30, 10000⟩ :=
  host_error_cache_default [] ⟨false, false, none, false, none, [], []⟩ rfl

/-- C5: with zero templates and zero workflows loaded,
ExecuteVulmapWithOpts returns ErrNoTemplatesAvailable and no scan starts;
with at least one template and a target count of zero it returns
ErrNoTargetsAvailable and no scan starts. -/
theorem execute_vulmap_guards :
    (∀ numTargets : Nat,
      executeVulmapWithOptsOutcome 0 0 numTargets
          = ExecuteOutcome.errNoTemplatesAvailable ∧
      executeVulmapWithOptsOutcome 0 0 numTargets
          ≠ ExecuteOutcome.scanStarted) ∧
    (∀ numTemplates numWorkflows : Nat,
      executeVulmapWithOptsOutcome (numTemplates + 1) numWorkflows 0
          = ExecuteOutcome.errNoTargetsAvailable ∧
      executeVulmapWithOptsOutcome (numTemplates + 1) numWorkflows 0
          ≠ ExecuteOutcome.scanStarted) := by
  constructor
  · intro n
    simp [executeVulmapWithOptsOutcome]
  · intro t w
    simp [executeVulmapWithOptsOutcome]

/-- C6: when every template of the set carries the same base request, the
clustered run (one physical request, every member matching against the
shared response) emits exactly the events of running every template
separately against the same deterministic target. -/
theorem clustering_equivalence (respond : BaseRequest → HTTPResponse)
    (b : BaseRequest) (ts : List ClusterTemplate)
    (hb : ∀ t ∈ ts, t.base = b) :
    runClustered respond ts = runSeparately respond ts := by
  cases ts with
  | nil => rfl
  | cons t0 rest =>
      have h0 : t0.base = b := hb t0 (by simp)
      simp only [runClustered, runSeparately]
      congr 1
      refine List.map_congr_left (fun t ht => ?_)
      have htb : t.base = b := hb t ht
      simp only [runTemplate, htb, h0]

/-- C6 witness: two templates sharing one base request but with different
matchers, run against a concrete responder. -/
theorem clustering_equivalence_witness :
    runClustered (fun _ => ⟨200, "welcome"⟩)
        [⟨"tpl-a", ⟨"GET", "/admin", ""⟩, fun r => r.status == 200⟩,
         ⟨"tpl-b", ⟨"GET", "/admin", ""⟩, fun r => r.body == "admin"⟩]
      = runSeparately (fun _ => ⟨200, "welcome"⟩)
        [⟨"tpl-a", ⟨"GET", "/admin", ""⟩, fun r => r.status == 200⟩,
         ⟨"tpl-b", ⟨"GET", "/admin", ""⟩, fun r => r.body == "admin"⟩] :=
  clustering_equivalence (fun _ => ⟨200, "welcome"⟩) ⟨"GET", "/admin", ""⟩
    [⟨"tpl-a", ⟨"GET", "/admin", ""⟩, fun r => r.status == 200⟩,
     ⟨"tpl-b", ⟨"GET", "/admin", ""⟩, fun r => r.body == "admin"⟩]
    (by intro t ht
        simp only [List.mem_cons, List.not_mem_nil, or_false] at ht
        rcases ht with rfl | rfl <;> rfl)

/-- C7: applyRequiredDefaults sets the exclude-tags option to exactly the
tags read from the persistent ignore file, whatever they were before. -/
theorem exclude_tags_from_ignore_file (ignoreFileTags : List String)
    (e : EngineState) :
    (applyRequiredDefaults ignoreFileTags e).excludeTags = ignoreFileTags := by
  simp [applyRequiredDefaults]

/-- C8: right after Set, Get returns the value with ok true and Has
returns true; and on every Context, for every key that is not in its
store (Has is false, which holds exactly for the keys never set, since
keys enter the store only through the Set family), Get returns the nil
interface with ok false — whether the store is empty or holds other keys. -/
theorem contextargs_set_get_has :
    (∀ (h : Heap) (c : Context) (k : String) (v : GoValue),
      Context.Get c (c.Set h k v) k = (v, true) ∧
      Context.Has c (c.Set h k v) k = true) ∧
    (∀ (h : Heap) (c : Context) (k : String),
      Context.Has c h k = false →
      Context.Get c h k = (GoValue.VNil, false)) := by
  constructor
  · intro h c k v
    constructor
    · simp [Context.Get, Context.Set, Context.hasArgs, ArgsMap.set_isEmpty,
        ArgsMap.get_set_self]
    · simp [Context.Has, Context.Set, Context.hasArgs, ArgsMap.has,
        ArgsMap.set_isEmpty, ArgsMap.get_set_self]
  · intro h c k hk
    by_cases hE : Context.hasArgs c h = true
    · have hhas : ArgsMap.has (h.argsStore c.argsRef) k = false := by
        simpa [Context.Has, hE] using hk
      have hget := ArgsMap.get_snd_false (h.argsStore c.argsRef) k hhas
      simp [Context.Get, hE, hget]
    · have hE2 : Context.hasArgs c h = false := by
        simpa using hE
      simp [Context.Get, hE2]

/-- C8 witness: on a fresh Context with the key other already set — a
non-empty store — a Get of the never-set key k returns (nil, false). -/
theorem contextargs_set_get_has_witness :
    Context.Get (NewWithInput "t" Heap.empty).1
        ((NewWithInput "t" Heap.empty).1.Set (NewWithInput "t" Heap.empty).2
          "other" (GoValue.VStr "x")) "k"
      = (GoValue.VNil, false) :=
  contextargs_set_get_has.2
    ((NewWithInput "t" Heap.empty).1.Set (NewWithInput "t" Heap.empty).2
      "other" (GoValue.VStr "x"))
    (NewWithInput "t" Heap.empty).1 "k" (by rfl)

/-- C9: evaluation of Context.Add at the failing input. On a fresh key
with an int value, the missing early return lets the default branch of
the type switch run after the Set, so Get returns the two-element list
with the value twice instead of the value itself. -/
theorem add_fresh_key_nonstring_duplicates :
    Context.Get (NewWithInput "t" Heap.empty).1
        ((NewWithInput "t" Heap.empty).1.Add (NewWithInput "t" Heap.empty).2
          "k" (GoValue.VInt 42)) "k"
      = (GoValue.VList [GoValue.VInt 42, GoValue.VInt 42], true) := by
  rfl

/-- C10: for a host rejected by the network policy, IsLdap returns false
with the host-denied error and CollectLdapMetadata returns the zero
metadata with the host-denied error, and neither dials any address. -/
theorem ldap_denied_host (c : LdapClient) (env : LdapEnv)
    (host controller : String) (port : Int)
    (hden : env.isHostAllowed host = false) :
    c.IsLdap env host port = ((false, some (LdapError.hostDenied host)), []) ∧
    c.CollectLdapMetadata env host controller
      = ((LDAPMetadata.zero, some (LdapError.hostDenied host)), []) := by
  constructor <;>
    simp [LdapClient.IsLdap, LdapClient.CollectLdapMetadata, hden]

/-- C10 witness: the denied-host theorem applied to the deny-all policy
environment at a concrete host, port and controller. -/
theorem ldap_denied_host_witness :
    LdapClient.IsLdap ⟨⟩ denyAllEnv "10.0.0.5" 389
        = ((false, some (LdapError.hostDenied "10.0.0.5")), []) ∧
    LdapClient.CollectLdapMetadata ⟨⟩ denyAllEnv "10.0.0.5" "dc01"
        = ((LDAPMetadata.zero, some (LdapError.hostDenied "10.0.0.5")), []) :=
  ldap_denied_host ⟨⟩ denyAllEnv "10.0.0.5" "dc01" 389 rfl

end Vulmap
